import Mathlib

/-
Verification of the proof-of-work gatekeeper bot (src/bot.py).

The development shallowly embeds the challenge registry and the
proof-of-work verifier of `bot.py`.  Machine integers are modelled as
`Nat` with explicit `% 2 ^ 32` where 32-bit overflow matters; the
registry dict `pending_challenges` is modelled as an association list
with dict semantics (insertion overwrites, lookup finds the unique
entry); the source of randomness used by `random.choices` is threaded
explicitly as a choice function `rand : Nat → Nat`.
-/

set_option autoImplicit false

namespace PowBot

/-! ## SHA-256 (the semantics of `hashlib.sha256(...).hexdigest()`)

Words are `Nat` kept below `2 ^ 32` by explicit reduction. -/

/-- Right rotation of a 32-bit word. -/
def rotr (n x : Nat) : Nat :=
  ((x >>> n) ||| (x <<< (32 - n))) % 2 ^ 32

/-- The SHA-256 `Ch` word function (`(x ∧ y) ⊕ (¬x ∧ z)` on 32 bits). -/
def ch (x y z : Nat) : Nat :=
  (x &&& y) ^^^ ((x ^^^ 4294967295) &&& z)

/-- The SHA-256 `Maj` word function. -/
def maj (x y z : Nat) : Nat :=
  (x &&& y) ^^^ (x &&& z) ^^^ (y &&& z)

/-- The SHA-256 big Σ₀ function. -/
def bigS0 (x : Nat) : Nat := rotr 2 x ^^^ rotr 13 x ^^^ rotr 22 x

/-- The SHA-256 big Σ₁ function. -/
def bigS1 (x : Nat) : Nat := rotr 6 x ^^^ rotr 11 x ^^^ rotr 25 x

/-- The SHA-256 small σ₀ function. -/
def smallS0 (x : Nat) : Nat := rotr 7 x ^^^ rotr 18 x ^^^ (x >>> 3)

/-- The SHA-256 small σ₁ function. -/
def smallS1 (x : Nat) : Nat := rotr 17 x ^^^ rotr 19 x ^^^ (x >>> 10)

/-- The 64 SHA-256 round constants. -/
def K256 : List Nat :=
  [1116352408, 1899447441, 3049323471, 3921009573, 961987163,
   1508970993, 2453635748, 2870763221, 3624381080, 310598401,
   607225278, 1426881987, 1925078388, 2162078206, 2614888103,
   3248222580, 3835390401, 4022224774, 264347078, 604807628,
   770255983, 1249150122, 1555081692, 1996064986, 2554220882,
   2821834349, 2952996808, 3210313671, 3336571891, 3584528711,
   113926993, 338241895, 666307205, 773529912, 1294757372,
   1396182291, 1695183700, 1986661051, 2177026350, 2456956037,
   2730485921, 2820302411, 3259730800, 3345764771, 3516065817,
   3600352804, 4094571909, 275423344, 430227734, 506948616,
   659060556, 883997877, 958139571, 1322822218, 1537002063,
   1747873779, 1955562222, 2024104815, 2227730452, 2361852424,
   2428436474, 2756734187, 3204031479, 3329325298]

/-- Big-endian byte decomposition of `n` into `len` bytes. -/
def toBEBytes (n len : Nat) : List Nat :=
  (List.range len).map fun i => (n >>> (8 * (len - 1 - i))) % 256

/-- Group a byte list into big-endian 32-bit words (four bytes per word). -/
def toWords : List Nat → List Nat
  | a :: b :: c :: d :: rest => (((a * 256 + b) * 256 + c) * 256 + d) :: toWords rest
  | _ => []

/-- SHA-256 message padding: append `0x80`, zero bytes up to 56 mod 64,
then the bit length as an 8-byte big-endian integer. -/
def pad (msg : List Nat) : List Nat :=
  msg ++ [0x80] ++ List.replicate ((119 - msg.length % 64) % 64) 0 ++ toBEBytes (8 * msg.length) 8

/-- Split a byte list into 64-byte blocks.  The list's length serves as
structural fuel so that evaluation unfolds definitionally. -/
def blocksAux : Nat → List Nat → List (List Nat)
  | 0, _ => []
  | _, [] => []
  | fuel + 1, a :: rest => (a :: rest).take 64 :: blocksAux fuel ((a :: rest).drop 64)

/-- Split a byte list into 64-byte blocks. -/
def blocks (l : List Nat) : List (List Nat) :=
  blocksAux l.length l

/-- Extend a 16-word block schedule by `fuel` additional words using σ₀/σ₁. -/
def scheduleAux : Nat → List Nat → List Nat
  | 0, w => w
  | fuel + 1, w =>
    let n := w.length
    scheduleAux fuel (w ++
      [(smallS1 (w.getD (n - 2) 0) + w.getD (n - 7) 0 +
        smallS0 (w.getD (n - 15) 0) + w.getD (n - 16) 0) % 2 ^ 32])

/-- The eight 32-bit working variables of the SHA-256 compression function. -/
structure Digest where
  a : Nat
  b : Nat
  c : Nat
  d : Nat
  e : Nat
  f : Nat
  g : Nat
  h : Nat

/-- One pass of the SHA-256 compression rounds over the schedule and constants. -/
def compressLoop : List Nat → List Nat → Digest → Digest
  | w :: ws, k :: ks, s =>
    let T1 := (s.h + bigS1 s.e + ch s.e s.f s.g + k + w) % 2 ^ 32
    let T2 := (bigS0 s.a + maj s.a s.b s.c) % 2 ^ 32
    compressLoop ws ks
      ⟨(T1 + T2) % 2 ^ 32, s.a, s.b, s.c, (s.d + T1) % 2 ^ 32, s.e, s.f, s.g⟩
  | _, _, s => s

/-- Process one 64-byte block: schedule, 64 rounds, then add into the state. -/
def processBlock (s : Digest) (block : List Nat) : Digest :=
  let w := scheduleAux 48 (toWords block)
  let t := compressLoop w K256 s
  ⟨(s.a + t.a) % 2 ^ 32, (s.b + t.b) % 2 ^ 32, (s.c + t.c) % 2 ^ 32, (s.d + t.d) % 2 ^ 32,
   (s.e + t.e) % 2 ^ 32, (s.f + t.f) % 2 ^ 32, (s.g + t.g) % 2 ^ 32, (s.h + t.h) % 2 ^ 32⟩

/-- SHA-256 of a byte string, as its 32-byte digest. -/
def sha256 (msg : List Nat) : List Nat :=
  let s := (blocks (pad msg)).foldl processBlock
    ⟨1779033703, 3144134277, 1013904242, 2773480762,
     1359893119, 2600822924, 528734635, 1541459225⟩
  toBEBytes s.a 4 ++ toBEBytes s.b 4 ++ toBEBytes s.c 4 ++ toBEBytes s.d 4 ++
  toBEBytes s.e 4 ++ toBEBytes s.f 4 ++ toBEBytes s.g 4 ++ toBEBytes s.h 4

/-- Lowercase hex digit for a value below 16. -/
def hexChar (n : Nat) : Char :=
  "0123456789abcdef".data.getD n '0'

/-- Lowercase hex encoding of a byte list (Python's `.hexdigest()`). -/
def hexdigest (bytes : List Nat) : List Char :=
  bytes.flatMap fun b => [hexChar (b / 16), hexChar (b % 16)]

/-- UTF-8 encoding of a single Unicode code point. -/
def utf8Char (c : Nat) : List Nat :=
  if c < 0x80 then [c]
  else if c < 0x800 then [0xc0 + c / 64, 0x80 + c % 64]
  else if c < 0x10000 then [0xe0 + c / 4096, 0x80 + c / 64 % 64, 0x80 + c % 64]
  else [0xf0 + c / 262144, 0x80 + c / 4096 % 64, 0x80 + c / 64 % 64, 0x80 + c % 64]

/-- UTF-8 encoding of a string (Python's `str.encode("utf-8")`). -/
def utf8 (s : String) : List Nat :=
  s.data.flatMap fun c => utf8Char c.toNat

/-! ## The challenge registry model (from `bot.py`) -/

/-- `DEFAULT_DIFFICULTY = 2` (bot.py line 23). -/
def DEFAULT_DIFFICULTY : Nat := 2

/-- `string.ascii_letters + string.digits`, the population `random.choices`
draws from in `generate_challenge` (bot.py line 29). -/
def alphabet : List Char :=
  "abcdefghijklmnopqrstuvwxyzABCDEFGHIJKLMNOPQRSTUVWXYZ0123456789".data

/-- `generate_challenge(length=16)` (bot.py lines 28-29): `length` characters
chosen from `alphabet`.  The randomness of `random.choices` is modelled by the
explicit choice function `rand`, reduced into range by `%` as `choices` always
returns elements of its population. -/
def generate_challenge (rand : Nat → Nat) (length : Nat := 16) : String :=
  String.mk ((List.range length).map fun i =>
    alphabet.get ⟨rand i % alphabet.length, Nat.mod_lt _ (by decide)⟩)

/-- The state of the `pending_challenges` dict (bot.py line 26): an association
list from `(chat_id, user_id)` to `(challenge, difficulty)`. -/
abbrev Reg : Type := List ((Int × Int) × (String × Nat))

/-- Dict lookup: the value stored for key `k`, if any. -/
def lookup : Reg → Int × Int → Option (String × Nat)
  | [], _ => none
  | (k', v) :: rest, k => if k' = k then some v else lookup rest k

/-- Dict assignment `pending_challenges[k] = v`: overwrites the entry for `k`
in place if present, otherwise appends it. -/
def dinsert : Reg → Int × Int → String × Nat → Reg
  | [], k, v => [(k, v)]
  | (k', v') :: rest, k, v =>
    if k' = k then (k, v) :: rest else (k', v') :: dinsert rest k v

/-- Dict removal `pending_challenges.pop(k, None)`: drops the entry for `k`. -/
def derase (m : Reg) (k : Int × Int) : Reg :=
  m.filter fun e => decide (e.1 ≠ k)

/-- Number of stored entries whose key is `k`. -/
def countKey (m : Reg) (k : Int × Int) : Nat :=
  (m.filter fun e => decide (e.1 = k)).length

/-- The ternary-plus verification outcome of the spec's `verify` contract. -/
inductive Outcome where
  | NoChallenge
  | InvalidFormat
  | Accepted
  | Rejected
deriving DecidableEq

/-- The inclusive codepoint ranges of the characters accepted by Python's
`str.isdigit()` (Unicode `Numeric_Type` Decimal or Digit; CPython 3.11
Unicode database, enumerated from `chr(i).isdigit()`). -/
def pyDigitRanges : List (Nat × Nat) :=
  [(48, 57), (178, 179), (185, 185), (1632, 1641),
   (1776, 1785), (1984, 1993), (2406, 2415), (2534, 2543),
   (2662, 2671), (2790, 2799), (2918, 2927), (3046, 3055),
   (3174, 3183), (3302, 3311), (3430, 3439), (3558, 3567),
   (3664, 3673), (3792, 3801), (3872, 3881), (4160, 4169),
   (4240, 4249), (4969, 4977), (6112, 6121), (6160, 6169),
   (6470, 6479), (6608, 6618), (6784, 6793), (6800, 6809),
   (6992, 7001), (7088, 7097), (7232, 7241), (7248, 7257),
   (8304, 8304), (8308, 8313), (8320, 8329), (9312, 9320),
   (9332, 9340), (9352, 9360), (9450, 9450), (9461, 9469),
   (9471, 9471), (10102, 10110), (10112, 10120), (10122, 10130),
   (42528, 42537), (43216, 43225), (43264, 43273), (43472, 43481),
   (43504, 43513), (43600, 43609), (44016, 44025), (65296, 65305),
   (66720, 66729), (68160, 68163), (68912, 68921), (69216, 69224),
   (69714, 69722), (69734, 69743), (69872, 69881), (69942, 69951),
   (70096, 70105), (70384, 70393), (70736, 70745), (70864, 70873),
   (71248, 71257), (71360, 71369), (71472, 71481), (71904, 71913),
   (72016, 72025), (72784, 72793), (73040, 73049), (73120, 73129),
   (92768, 92777), (92864, 92873), (93008, 93017), (120782, 120831),
   (123200, 123209), (123632, 123641), (125264, 125273), (127232, 127242),
   (130032, 130041)]

/-- Python's per-character digit test underlying `str.isdigit()`. -/
def pyIsDigit (c : Char) : Bool :=
  pyDigitRanges.any fun r => decide (r.1 ≤ c.toNat) && decide (c.toNat ≤ r.2)

/-- Python's `str.isdigit()`: non-empty and all characters Unicode digits. -/
def isdigit (s : String) : Bool :=
  !s.isEmpty && s.data.all pyIsDigit

/-- The codepoints of the whitespace characters removed by Python's
`str.strip()` (exactly those with `str.isspace()` true; CPython 3.11). -/
def pySpaceCodes : List Nat :=
  [9, 10, 11, 12, 13, 28, 29, 30, 31, 32,
   133, 160, 5760, 8192, 8193, 8194, 8195, 8196, 8197, 8198,
   8199, 8200, 8201, 8202, 8232, 8233, 8239, 8287, 12288]

/-- Python's per-character whitespace test underlying `str.strip()`. -/
def isPySpace (c : Char) : Bool :=
  pySpaceCodes.contains c.toNat

/-- Python's `str.strip()`: drop leading and trailing whitespace. -/
def pyStrip (s : String) : String :=
  String.mk (((s.data.dropWhile isPySpace).reverse.dropWhile isPySpace).reverse)

/-- Python's `str.startswith` on character lists. -/
def startswith (s p : List Char) : Bool :=
  List.isPrefixOf p s

/-- The spec §4.2 pure proof-of-work verifier `check(secret, nonce, difficulty)`,
exactly the test of bot.py lines 124-126:
`hashlib.sha256((challenge + nonce_str).encode("utf-8")).hexdigest().startswith("0" * difficulty)`. -/
def check (secret nonce : String) (difficulty : Nat) : Bool :=
  startswith (hexdigest (sha256 (utf8 (secret ++ nonce)))) (List.replicate difficulty '0')

/-- The registry effect shared by `handle_new_member` (lines 56-58),
`trigger_pow` (lines 93-95) and `new_challenge` (lines 184-186):
`pending_challenges[(chat_id, user_id)] = (generate_challenge(), DEFAULT_DIFFICULTY)`.
This is the spec's `issue(group_id, member_id)`. -/
def issue_reg (st : Reg) (chat_id user_id : Int) (rand : Nat → Nat) : Reg :=
  dinsert st (chat_id, user_id) (generate_challenge rand, DEFAULT_DIFFICULTY)

/-- The fields of a `chat_member` membership-transition update that
`handle_new_member` reads. -/
structure MemberEvent where
  chat_id : Int
  user_id : Int
  is_bot : Bool
  old_status : String
  new_status : String

/-- `handle_new_member` (bot.py lines 34-58), restricted to its registry
effect; the second component records whether a challenge was issued.
External calls (restrict, send_message) do not touch the registry. -/
def handle_new_member (rand : Nat → Nat) (ev : MemberEvent) (st : Reg) : Reg × Bool :=
  if ev.new_status = "member" ∧ ev.old_status ∉ (["member", "administrator", "creator"] : List String) then
    if ev.is_bot then (st, false)
    else (issue_reg st ev.chat_id ev.user_id rand, true)
  else (st, false)

/-- `handle_user_reply` (bot.py lines 109-143), the spec's
`verify(group_id, member_id, candidate)`: outcome plus resulting registry. -/
def handle_user_reply (st : Reg) (chat_id user_id : Int) (text : String) : Outcome × Reg :=
  match lookup st (chat_id, user_id) with
  | none => (Outcome.NoChallenge, st)
  | some (challenge, difficulty) =>
    let nonce_str := pyStrip text
    if !(isdigit nonce_str) then (Outcome.InvalidFormat, st)
    else if check challenge nonce_str difficulty then
      (Outcome.Accepted, derase st (chat_id, user_id))
    else (Outcome.Rejected, st)

/-- Modelled from the spec: `revoke(group_id, member_id)` (spec §4.1) has no
counterpart under src/ — no handler in bot.py removes a record except
verification success — so it is modelled from the spec's words: "removes a
record without verification ...; no-op if absent". -/
def revoke (st : Reg) (group_id member_id : Int) : Reg :=
  derase st (group_id, member_id)

/-- A Telegram user as read by the `mute` handler. -/
structure TgUser where
  id : Int
  username : Option String

/-- External side effects issued by handlers (calls into the messaging layer). -/
inductive Action where
  | restrict_send (chat_id user_id : Int)
  | reply (text : String)

/-- Python's `str.lstrip('@')`: drop leading `'@'` characters. -/
def lstripAt (s : String) : String :=
  String.mk (s.data.dropWhile fun c => c == '@')

/-- The admin-scan loop of `mute` (bot.py lines 167-170): the first
administrator whose username equals the given one. -/
def find_admin_target (username : String) : List TgUser → Option TgUser
  | [] => none
  | a :: rest => if a.username = some username then some a else find_admin_target username rest

/-- Target resolution of `mute` (bot.py lines 162-170): the replied-to user
if the command replies to a message, otherwise the first administrator whose
username matches the first argument with leading `'@'` stripped. -/
def mute_target (reply_to : Option TgUser) (args : List String)
    (admins : List TgUser) : Option TgUser :=
  match reply_to with
  | some u => some u
  | none =>
    match args with
    | [] => none
    | a :: _ => find_admin_target (lstripAt a) admins

/-- `mute` (bot.py lines 159-177): resolves a target, then either reports a
usage error or restricts the target.  It never reads or writes
`pending_challenges`, so the registry is passed through unchanged. -/
def mute (chat_id : Int) (reply_to : Option TgUser) (args : List String)
    (admins : List TgUser) (st : Reg) : Reg × List Action :=
  match mute_target reply_to args admins with
  | none => (st, [Action.reply ("usage")])
  | some t => (st, [Action.restrict_send chat_id t.id, Action.reply ("muted")])

/-- The registry states reachable from the empty dict the process starts with,
closed under every operation of the program: conditional issuance on a
membership event, issuance by the `/triggerpow` and `/new` commands,
verification of a reply, and the spec's `revoke`. -/
inductive Reachable : Reg → Prop
  | init : Reachable []
  | new_member (rand : Nat → Nat) (ev : MemberEvent) {st : Reg} :
      Reachable st → Reachable (handle_new_member rand ev st).1
  | trigger_pow (rand : Nat → Nat) (chat_id user_id : Int) {st : Reg} :
      Reachable st → Reachable (issue_reg st chat_id user_id rand)
  | reply (chat_id user_id : Int) (text : String) {st : Reg} :
      Reachable st → Reachable (handle_user_reply st chat_id user_id text).2
  | revoke_step (group_id member_id : Int) {st : Reg} :
      Reachable st → Reachable (revoke st group_id member_id)

/-- The at-most-one-record-per-key invariant. -/
abbrev Inv (m : Reg) : Prop := ∀ k, countKey m k ≤ 1

/-- The record-shape invariant: every stored secret has 16 characters and
every stored difficulty is the process-wide constant. -/
abbrev RecOK (m : Reg) : Prop :=
  ∀ e ∈ m, e.2.1.length = 16 ∧ e.2.2 = DEFAULT_DIFFICULTY

/-- A concrete deterministic choice function, used to instantiate `rand`
in witnesses. -/
def rand0 : Nat → Nat := fun _ => 0

/-- A membership event for a bot account joining a group. -/
def evBot : MemberEvent :=
  { chat_id := 1, user_id := 2, is_bot := true, old_status := "left", new_status := "member" }

/-- A membership event for a human account joining a group. -/
def evJoin : MemberEvent :=
  { chat_id := 1, user_id := 3, is_bot := false, old_status := "left", new_status := "member" }

/-! ## Registry lemmas -/

theorem lookup_dinsert_self (m : Reg) (k : Int × Int) (v : String × Nat) :
    lookup (dinsert m k v) k = some v := by
  induction m with
  | nil => simp [dinsert, lookup]
  | cons e rest ih =>
    obtain ⟨k', v'⟩ := e
    by_cases h : k' = k
    · simp [dinsert, h, lookup]
    · simp [dinsert, h, lookup, ih]

theorem lookup_derase_self (m : Reg) (k : Int × Int) :
    lookup (derase m k) k = none := by
  induction m with
  | nil => rfl
  | cons e rest ih =>
    obtain ⟨k', v'⟩ := e
    by_cases h : k' = k
    · simpa [derase, List.filter_cons, h] using ih
    · simpa [derase, List.filter_cons, h, lookup] using ih

theorem derase_eq_of_lookup_none (m : Reg) (k : Int × Int) (h : lookup m k = none) :
    derase m k = m := by
  induction m with
  | nil => rfl
  | cons e rest ih =>
    obtain ⟨k', v'⟩ := e
    by_cases hk : k' = k
    · rw [lookup, if_pos hk] at h
      exact absurd h (by simp)
    · rw [lookup, if_neg hk] at h
      have hrest := ih h
      simp only [derase, List.filter_cons] at hrest ⊢
      rw [if_pos (by simp [hk]), hrest]

theorem lookup_mem (m : Reg) (k : Int × Int) (v : String × Nat) (h : lookup m k = some v) :
    (k, v) ∈ m := by
  induction m with
  | nil => exact absurd h (by simp [lookup])
  | cons e rest ih =>
    obtain ⟨k', v'⟩ := e
    by_cases hk : k' = k
    · rw [lookup, if_pos hk] at h
      obtain rfl : v' = v := by simpa using h
      subst hk
      exact List.mem_cons_self _ _
    · rw [lookup, if_neg hk] at h
      exact List.mem_cons_of_mem _ (ih h)

theorem dinsert_length_of_lookup (m : Reg) (k : Int × Int) (r v : String × Nat)
    (h : lookup m k = some r) : (dinsert m k v).length = m.length := by
  induction m with
  | nil => exact absurd h (by simp [lookup])
  | cons e rest ih =>
    obtain ⟨k', v'⟩ := e
    by_cases hk : k' = k
    · simp [dinsert, hk]
    · rw [lookup, if_neg hk] at h
      simp [dinsert, hk, ih h]

theorem countKey_cons (e : (Int × Int) × (String × Nat)) (m : Reg) (k : Int × Int) :
    countKey (e :: m) k = countKey m k + (if e.1 = k then 1 else 0) := by
  by_cases h : e.1 = k <;> simp [countKey, List.filter_cons, h]

theorem countKey_dinsert_self (m : Reg) (k : Int × Int) (v : String × Nat)
    (h : countKey m k ≤ 1) : countKey (dinsert m k v) k = 1 := by
  induction m with
  | nil => simp [dinsert, countKey, List.filter_cons]
  | cons e rest ih =>
    obtain ⟨k', v'⟩ := e
    rw [countKey_cons] at h
    by_cases hk : k' = k
    · rw [if_pos hk] at h
      have h0 : countKey rest k = 0 := by omega
      simp [dinsert, hk, countKey_cons, h0]
    · rw [if_neg hk] at h
      simp [dinsert, hk, countKey_cons, ih (by omega)]

theorem countKey_dinsert_ne (m : Reg) (k k' : Int × Int) (v : String × Nat)
    (h : k ≠ k') : countKey (dinsert m k v) k' = countKey m k' := by
  induction m with
  | nil => simp [dinsert, countKey, List.filter_cons, h]
  | cons e rest ih =>
    obtain ⟨k'', v''⟩ := e
    by_cases hk : k'' = k
    · subst hk
      simp [dinsert, countKey_cons, h]
    · simp [dinsert, hk, countKey_cons, ih]

theorem countKey_derase_le (m : Reg) (k k' : Int × Int) :
    countKey (derase m k') k ≤ countKey m k := by
  induction m with
  | nil => exact Nat.le_refl _
  | cons e rest ih =>
    simp only [derase, List.filter_cons] at ih ⊢
    by_cases hk : e.1 = k'
    · rw [if_neg (by simp [hk]), countKey_cons]
      exact Nat.le_trans ih (Nat.le_add_right _ _)
    · rw [if_pos (by simp [hk]), countKey_cons, countKey_cons]
      exact Nat.add_le_add_right ih _

theorem Inv_nil : Inv [] := fun _ => by simp [countKey]

theorem Inv_dinsert (m : Reg) (k : Int × Int) (v : String × Nat) (h : Inv m) :
    Inv (dinsert m k v) := by
  intro k'
  by_cases hk : k = k'
  · subst hk
    rw [countKey_dinsert_self m k v (h k)]
  · rw [countKey_dinsert_ne m k k' v hk]
    exact h k'

theorem Inv_derase (m : Reg) (k : Int × Int) (h : Inv m) : Inv (derase m k) :=
  fun k' => Nat.le_trans (countKey_derase_le m k' k) (h k')

theorem reply_snd_cases (st : Reg) (g u : Int) (t : String) :
    (handle_user_reply st g u t).2 = st ∨
    (handle_user_reply st g u t).2 = derase st (g, u) := by
  unfold handle_user_reply
  cases hl : lookup st (g, u) with
  | none => left; rfl
  | some v =>
    obtain ⟨c, d⟩ := v
    cases hd : isdigit (pyStrip t) with
    | false => left; simp [hd]
    | true =>
      cases hc : check c (pyStrip t) d with
      | false => left; simp [hd, hc]
      | true => right; simp [hd, hc]

theorem new_member_fst_cases (rand : Nat → Nat) (ev : MemberEvent) (st : Reg) :
    (handle_new_member rand ev st).1 = st ∨
    (handle_new_member rand ev st).1 = issue_reg st ev.chat_id ev.user_id rand := by
  unfold handle_new_member
  split
  · split
    · left; rfl
    · right; rfl
  · left; rfl

theorem mem_dinsert (m : Reg) (k : Int × Int) (v : String × Nat)
    (e : (Int × Int) × (String × Nat)) (h : e ∈ dinsert m k v) :
    e = (k, v) ∨ e ∈ m := by
  induction m with
  | nil => simpa [dinsert] using h
  | cons e' rest ih =>
    obtain ⟨k', v'⟩ := e'
    by_cases hk : k' = k
    · simp only [dinsert, if_pos hk, List.mem_cons] at h
      rcases h with h | h
      · exact Or.inl h
      · exact Or.inr (List.mem_cons_of_mem _ h)
    · simp only [dinsert, if_neg hk, List.mem_cons] at h
      rcases h with h | h
      · exact Or.inr (by simp [h])
      · rcases ih h with h' | h'
        · exact Or.inl h'
        · exact Or.inr (List.mem_cons_of_mem _ h')

theorem generate_challenge_length (rand : Nat → Nat) (length : Nat) :
    (generate_challenge rand length).length = length := by
  simp [generate_challenge, String.length]

theorem RecOK_dinsert (m : Reg) (k : Int × Int) (v : String × Nat) (h : RecOK m)
    (hv : v.1.length = 16 ∧ v.2 = DEFAULT_DIFFICULTY) : RecOK (dinsert m k v) := by
  intro e he
  rcases mem_dinsert m k v e he with rfl | hm
  · exact hv
  · exact h e hm

theorem RecOK_derase (m : Reg) (k : Int × Int) (h : RecOK m) : RecOK (derase m k) :=
  fun e he => h e (List.mem_of_mem_filter he)

theorem RecOK_issue (m : Reg) (g u : Int) (rand : Nat → Nat) (h : RecOK m) :
    RecOK (issue_reg m g u rand) :=
  RecOK_dinsert m (g, u) _ h ⟨generate_challenge_length rand 16, rfl⟩

theorem reachable_inv_recOK (st : Reg) (h : Reachable st) : Inv st ∧ RecOK st := by
  induction h with
  | init => exact ⟨Inv_nil, fun e he => absurd he (List.not_mem_nil e)⟩
  | new_member rand ev hst ih =>
    rcases new_member_fst_cases rand ev _ with hc | hc <;> rw [hc]
    · exact ih
    · exact ⟨Inv_dinsert _ _ _ ih.1, RecOK_issue _ _ _ _ ih.2⟩
  | trigger_pow rand g u hst ih =>
    exact ⟨Inv_dinsert _ _ _ ih.1, RecOK_issue _ _ _ _ ih.2⟩
  | reply g u text hst ih =>
    rcases reply_snd_cases _ g u text with hc | hc <;> rw [hc]
    · exact ih
    · exact ⟨Inv_derase _ _ ih.1, RecOK_derase _ _ ih.2⟩
  | revoke_step g u hst ih =>
    exact ⟨Inv_derase _ _ ih.1, RecOK_derase _ _ ih.2⟩

/-! ## String lemmas -/

theorem digit_not_pyspace (c : Char) (h : pyIsDigit c = true) : isPySpace c = false := by
  have key : pySpaceCodes.all
      (fun n => !(pyDigitRanges.any fun r => decide (r.1 ≤ n) && decide (n ≤ r.2))) = true := by
    decide
  by_contra hsp
  rw [Bool.not_eq_false, isPySpace] at hsp
  have hmem : c.toNat ∈ pySpaceCodes := List.mem_of_elem_eq_true hsp
  have hnd := List.all_eq_true.mp key c.toNat hmem
  rw [Bool.not_eq_true'] at hnd
  rw [pyIsDigit, hnd] at h
  exact absurd h (by simp)

theorem dropWhile_digits (l : List Char) (h : l.all pyIsDigit = true) :
    l.dropWhile isPySpace = l := by
  cases l with
  | nil => rfl
  | cons c cs =>
    rw [List.all_cons, Bool.and_eq_true] at h
    rw [List.dropWhile_cons, digit_not_pyspace c h.1]
    simp

theorem pyStrip_digits (n : String) (h : isdigit n = true) : pyStrip n = n := by
  have hall : n.data.all pyIsDigit = true := by
    simp only [isdigit, Bool.and_eq_true] at h
    exact h.2
  have hall2 : n.data.reverse.all pyIsDigit = true :=
    List.all_eq_true.mpr fun c hc => List.all_eq_true.mp hall c (List.mem_reverse.mp hc)
  unfold pyStrip
  rw [dropWhile_digits _ hall, dropWhile_digits _ hall2, List.reverse_reverse]

theorem utf8_append (s t : String) : utf8 (s ++ t) = utf8 s ++ utf8 t := by
  simp [utf8, String.data_append]

/-! ## Claim theorems -/

/-- C1: for a stored challenge record with secret `s` and difficulty `d` and a
well-formed candidate nonce string `n`, `verify` returns `Accepted` iff the
hex encoding of SHA-256 of the byte concatenation of `s` followed by `n`
starts with `d` consecutive `'0'` hex characters, with no leading-zero
requirement when `d = 0`. -/
theorem verify_accepted_iff_pow (st : Reg) (g u : Int) (s : String) (d : Nat) (n : String)
    (hrec : lookup st (g, u) = some (s, d)) (hn : isdigit n = true) :
    ((handle_user_reply st g u n).1 = Outcome.Accepted ↔
      startswith (hexdigest (sha256 (utf8 s ++ utf8 n))) (List.replicate d '0') = true) ∧
    (d = 0 → (handle_user_reply st g u n).1 = Outcome.Accepted) := by
  have hstrip : pyStrip n = n := pyStrip_digits n hn
  have hch : check s n d =
      startswith (hexdigest (sha256 (utf8 s ++ utf8 n))) (List.replicate d '0') := by
    rw [check, utf8_append]
  cases hc : check s n d with
  | true =>
    have hkey : handle_user_reply st g u n = (Outcome.Accepted, derase st (g, u)) := by
      unfold handle_user_reply
      rw [hrec]
      simp [hstrip, hn, hc]
    rw [hkey]
    exact ⟨⟨fun _ => hch ▸ hc, fun _ => rfl⟩, fun _ => rfl⟩
  | false =>
    have hkey : handle_user_reply st g u n = (Outcome.Rejected, st) := by
      unfold handle_user_reply
      rw [hrec]
      simp [hstrip, hn, hc]
    rw [hkey]
    constructor
    · constructor
      · intro ha
        exact absurd ha (by simp)
      · intro hs
        rw [← hch, hc] at hs
        exact absurd hs (by simp)
    · intro hd
      subst hd
      have hz : check s n 0 = true := by
        rw [check]
        rfl
      rw [hz] at hc
      exact absurd hc (by simp)

theorem verify_accepted_iff_pow_witness :
    lookup [((1, 2), ("abc", 2))] (1, 2) = some ("abc", 2) ∧ isdigit ("57") = true ∧
    (((handle_user_reply [((1, 2), ("abc", 2))] 1 2 "57").1 = Outcome.Accepted ↔
      startswith (hexdigest (sha256 (utf8 ("abc") ++ utf8 ("57")))) (List.replicate 2 '0') = true) ∧
    (2 = 0 → (handle_user_reply [((1, 2), ("abc", 2))] 1 2 "57").1 = Outcome.Accepted)) :=
  ⟨rfl, rfl, verify_accepted_iff_pow [((1, 2), ("abc", 2))] 1 2 ("abc") 2 ("57") rfl rfl⟩

/-- C2: when `verify` returns `Accepted` the record for the pair is removed in
the same call, so any subsequent `verify` for this pair (in particular a
resubmission of the winning nonce) yields `NoChallenge`. -/
theorem accepted_retires_challenge (st st' : Reg) (g u : Int) (n c : String)
    (h : handle_user_reply st g u n = (Outcome.Accepted, st')) :
    lookup st' (g, u) = none ∧ (handle_user_reply st' g u c).1 = Outcome.NoChallenge := by
  have hst' : st' = derase st (g, u) := by
    unfold handle_user_reply at h
    cases hl : lookup st (g, u) with
    | none =>
      rw [hl] at h
      exact absurd h (by simp)
    | some v =>
      obtain ⟨cc, d⟩ := v
      rw [hl] at h
      cases hd : isdigit (pyStrip n) with
      | false => simp [hd] at h
      | true =>
        cases hc : check cc (pyStrip n) d with
        | false => simp [hd, hc] at h
        | true =>
          simp only [hd, hc, Bool.not_true, Bool.false_eq_true, if_false, if_true,
            Prod.mk.injEq] at h
          exact h.2.symm
  subst hst'
  refine ⟨lookup_derase_self st (g, u), ?_⟩
  unfold handle_user_reply
  rw [lookup_derase_self st (g, u)]

theorem accepted_retires_challenge_witness :
    lookup ([] : Reg) (0, 0) = none ∧
    (handle_user_reply ([] : Reg) 0 0 "7").1 = Outcome.NoChallenge :=
  accepted_retires_challenge [((0, 0), ("x", 0))] [] 0 0 ("5") ("7") rfl

/-- C3: every reachable registry state holds at most one record per key, and
issuing on a pair that already has a record overwrites it in place (the new
record is stored, the total number of entries does not grow). -/
theorem registry_single_record_per_key (st st₂ : Reg) (hr : Reachable st)
    (hr₂ : Reachable st₂) (k : Int × Int) (g u : Int) (rand : Nat → Nat)
    (r : String × Nat) (hl : lookup st₂ (g, u) = some r) :
    countKey st k ≤ 1 ∧
    lookup (issue_reg st₂ g u rand) (g, u) =
      some (generate_challenge rand, DEFAULT_DIFFICULTY) ∧
    countKey (issue_reg st₂ g u rand) (g, u) = 1 ∧
    (issue_reg st₂ g u rand).length = st₂.length := by
  refine ⟨(reachable_inv_recOK st hr).1 k, lookup_dinsert_self st₂ (g, u) _, ?_, ?_⟩
  · exact countKey_dinsert_self st₂ (g, u) _ ((reachable_inv_recOK st₂ hr₂).1 (g, u))
  · exact dinsert_length_of_lookup st₂ (g, u) r _ hl

theorem registry_single_record_per_key_witness :
    countKey ([] : Reg) (9, 9) ≤ 1 ∧
    lookup (issue_reg (issue_reg [] 0 0 rand0) 0 0 rand0) (0, 0) =
      some (generate_challenge rand0, DEFAULT_DIFFICULTY) ∧
    countKey (issue_reg (issue_reg [] 0 0 rand0) 0 0 rand0) (0, 0) = 1 ∧
    (issue_reg (issue_reg [] 0 0 rand0) 0 0 rand0).length = (issue_reg [] 0 0 rand0).length :=
  registry_single_record_per_key [] (issue_reg [] 0 0 rand0) Reachable.init
    (Reachable.trigger_pow rand0 0 0 Reachable.init) (9, 9) 0 0 rand0
    (generate_challenge rand0, DEFAULT_DIFFICULTY) rfl

/-- C4 counterexample: the claim as stated is false of the program.  The
candidate `"5\u00b2"` is not a well-formed non-negative integer literal, but
Python's `str.isdigit()` accepts the Unicode digit `'\u00b2'`, so with an
outstanding challenge of difficulty 2 the program hashes the candidate and
returns `Rejected` — not `InvalidFormat` — contradicting the claim. -/
theorem unicode_digit_candidate_not_invalid_format :
    handle_user_reply [((0, 0), ("abc123XYZ0000000", 2))] 0 0 "5²" =
      (Outcome.Rejected, [((0, 0), ("abc123XYZ0000000", 2))]) := by
  decide

/-- C4 (amended): with an outstanding challenge, a candidate whose
whitespace-stripped form fails Python's `str.isdigit()` test — is empty or
contains a character that is not a Unicode digit — yields `InvalidFormat`
(never `Accepted` or `Rejected`) and leaves the registry unchanged.
Candidates made of Unicode digit characters only, such as `"5\u00b2"`, pass
the `isdigit()` gate and are hashed instead. -/
theorem invalid_format_keeps_challenge (st : Reg) (g u : Int) (s : String) (d : Nat)
    (text : String) (hrec : lookup st (g, u) = some (s, d))
    (hbad : isdigit (pyStrip text) = false) :
    handle_user_reply st g u text = (Outcome.InvalidFormat, st) := by
  unfold handle_user_reply
  rw [hrec]
  simp [hbad]

theorem invalid_format_keeps_challenge_witness :
    handle_user_reply [((3, 4), ("q", 2))] 3 4 "12a" = (Outcome.InvalidFormat, [((3, 4), ("q", 2))]) :=
  invalid_format_keeps_challenge [((3, 4), ("q", 2))] 3 4 ("q") 2 ("12a") rfl rfl

/-- C5: `revoke` removes the record for the pair without any verification and
is a no-op when no record exists; `issue` immediately followed by `revoke`
followed by `verify` with any candidate yields `NoChallenge`. -/
theorem revoke_removes_without_verification (st st₂ : Reg) (g u : Int) (c : String)
    (rand : Nat → Nat) (hnone : lookup st₂ (g, u) = none) :
    revoke st₂ g u = st₂ ∧
    lookup (revoke st g u) (g, u) = none ∧
    (handle_user_reply (revoke (issue_reg st g u rand) g u) g u c).1 = Outcome.NoChallenge := by
  refine ⟨derase_eq_of_lookup_none st₂ (g, u) hnone, lookup_derase_self st (g, u), ?_⟩
  unfold handle_user_reply
  rw [revoke, lookup_derase_self]

theorem revoke_removes_without_verification_witness :
    revoke [] 0 0 = ([] : Reg) ∧
    lookup (revoke [] 0 0) (0, 0) = none ∧
    (handle_user_reply (revoke (issue_reg [] 0 0 rand0) 0 0) 0 0 "1").1 = Outcome.NoChallenge :=
  revoke_removes_without_verification [] [] 0 0 ("1") rand0 rfl

/-- C6: a membership-transition event for a bot account never triggers `issue`;
`issue` is triggered exactly when the new status is regular member, the old
status was not already member/administrator/owner, and `is_bot` is false. -/
theorem member_event_issue_condition (rand : Nat → Nat) (ev ev' : MemberEvent)
    (st st' : Reg) (hbot : ev.is_bot = true) :
    handle_new_member rand ev st = (st, false) ∧
    ((handle_new_member rand ev' st').2 = true ↔
      (ev'.new_status = "member" ∧
       ev'.old_status ∉ (["member", "administrator", "creator"] : List String) ∧
       ev'.is_bot = false)) := by
  constructor
  · unfold handle_new_member
    by_cases hcond : (ev.new_status = "member" ∧
        ev.old_status ∉ (["member", "administrator", "creator"] : List String))
    · rw [if_pos hcond, hbot]
      simp
    · rw [if_neg hcond]
  · unfold handle_new_member
    by_cases hcond : (ev'.new_status = "member" ∧
        ev'.old_status ∉ (["member", "administrator", "creator"] : List String))
    · rw [if_pos hcond]
      cases hb : ev'.is_bot with
      | true => simp [hb, hcond.1, hcond.2]
      | false => simp [hb, hcond.1, hcond.2]
    · have hno : ¬(ev'.new_status = "member" ∧
          ev'.old_status ∉ (["member", "administrator", "creator"] : List String) ∧
          ev'.is_bot = false) := fun hall => hcond ⟨hall.1, hall.2.1⟩
      rw [if_neg hcond]
      exact iff_of_false (by simp) hno

theorem member_event_issue_condition_witness :
    handle_new_member rand0 evBot [] = ([], false) ∧
    ((handle_new_member rand0 evJoin []).2 = true ↔
      (evJoin.new_status = "member" ∧
       evJoin.old_status ∉ (["member", "administrator", "creator"] : List String) ∧
       evJoin.is_bot = false)) :=
  member_event_issue_condition rand0 evBot evJoin [] [] rfl

/-- C7: every `issue` stores a secret of (at least) 16 characters drawn from
the alphanumeric alphabet, with the process-wide difficulty constant. -/
theorem issue_secret_alphanumeric (st : Reg) (g u : Int) (rand : Nat → Nat) (c : Char)
    (hc : c ∈ (generate_challenge rand).data) :
    lookup (issue_reg st g u rand) (g, u) =
      some (generate_challenge rand, DEFAULT_DIFFICULTY) ∧
    16 ≤ (generate_challenge rand).length ∧
    c ∈ alphabet := by
  refine ⟨lookup_dinsert_self st (g, u) _, ?_, ?_⟩
  · rw [generate_challenge_length]
  · have hc' : c ∈ (List.range 16).map (fun i =>
        alphabet.get ⟨rand i % alphabet.length, Nat.mod_lt _ (by decide)⟩) := hc
    obtain ⟨i, _, heq⟩ := List.mem_map.mp hc'
    rw [← heq]
    exact List.get_mem _ _ _

theorem issue_secret_alphanumeric_witness :
    lookup (issue_reg [] 5 6 rand0) (5, 6) =
      some (generate_challenge rand0, DEFAULT_DIFFICULTY) ∧
    16 ≤ (generate_challenge rand0).length ∧
    'a' ∈ alphabet :=
  issue_secret_alphanumeric [] 5 6 rand0 'a' (by decide)

/-- C8: the proof-of-work check is deterministic — two evaluations of `check`
on the same secret, nonce and difficulty return the same boolean. -/
theorem check_deterministic (s n : String) (d : Nat) (r₁ r₂ : Bool)
    (h₁ : check s n d = r₁) (h₂ : check s n d = r₂) : r₁ = r₂ := by
  rw [← h₁, ← h₂]

theorem check_deterministic_witness :
    check ("a") ("1") 0 = true ∧ (true : Bool) = true :=
  ⟨rfl, check_deterministic ("a") ("1") 0 true true rfl rfl⟩

/-- C9: in every reachable registry state every stored record has a secret of
exactly 16 characters and the process-wide difficulty constant 2. -/
theorem stored_record_shape (st : Reg) (hr : Reachable st) (k : Int × Int)
    (s : String) (d : Nat) (hl : lookup st k = some (s, d)) :
    s.length = 16 ∧ d = DEFAULT_DIFFICULTY ∧ DEFAULT_DIFFICULTY = 2 := by
  have h := (reachable_inv_recOK st hr).2 (k, (s, d)) (lookup_mem st k (s, d) hl)
  exact ⟨h.1, h.2, rfl⟩

theorem stored_record_shape_witness :
    (generate_challenge rand0).length = 16 ∧
    DEFAULT_DIFFICULTY = DEFAULT_DIFFICULTY ∧ DEFAULT_DIFFICULTY = 2 :=
  stored_record_shape (issue_reg [] 7 8 rand0)
    (Reachable.trigger_pow rand0 7 8 Reachable.init) (7, 8)
    (generate_challenge rand0) DEFAULT_DIFFICULTY rfl

/-- C10: the `mute` command leaves the challenge registry unchanged — it only
emits external actions, and neither issues, replaces, nor revokes a record. -/
theorem mute_preserves_registry (chat_id : Int) (reply_to : Option TgUser)
    (args : List String) (admins : List TgUser) (st : Reg) :
    (mute chat_id reply_to args admins st).1 = st := by
  unfold mute
  cases mute_target reply_to args admins <;> rfl

end PowBot
